import Mathlib

/-!
Shallow embedding of the earthquake-intel service (src/src/index.ts).

The source file contains two concatenated entrypoint modules:
  * module 1: overview / lookup / search / top / compare / report handlers;
  * module 2: overview / recent / significant / nearby / magnitude / report
    handlers, together with haversineDistance and the regional bounding boxes.

Numbers occurring in the JavaScript source (magnitudes, coordinates, radii)
are modelled as rationals; counts are modelled as naturals.  Transcendental
operations used by haversineDistance (sin, cos, sqrt, atan2) are modelled as
an explicit operation record, so that theorems quantify over any
implementation of those operations satisfying the stated algebraic facts.
-/

namespace EarthquakeIntel

/-- One GeoJSON feature of a USGS feed, restricted to the fields the
handlers read: id, properties.mag, properties.sig, properties.place and
geometry.coordinates = [longitude, latitude, depth]. -/
structure Feature where
  id : String
  mag : ℚ
  sig : ℚ
  place : String
  longitude : ℚ
  latitude : ℚ
  depth : ℚ
deriving DecidableEq, Repr

/-- A feed payload as consumed by the handlers: metadata.count plus the
features array. -/
structure FeedPayload where
  count : ℕ
  features : List Feature
deriving DecidableEq, Repr

/-- JavaScript Math.round on an exact rational: floor of x + 1/2. -/
def jsRound (q : ℚ) : ℤ := ⌊q + 1/2⌋

/-- Number(x.toFixed(2)) on an exact rational: round to hundredths. -/
def roundTo2 (q : ℚ) : ℚ := (jsRound (q * 100) : ℚ) / 100

/-- Math.max over a spread array of magnitudes (used only on nonempty
arrays in the source; the source substitutes 0 for the empty case at each
call site). -/
def maxQ : List ℚ → ℚ
  | [] => 0
  | h :: t => t.foldl max h

/-! ## Risk scoring (report handler of module 1, lines 343-355) -/

/-- Risk level enumeration of the report handler. -/
inductive RiskLevel where
  | low
  | moderate
  | elevated
  | high
deriving DecidableEq, Repr

/-- The riskScore accumulation of the report handler:
starts at 0, then
if (nearby50km.metadata.count > 0) riskScore += nearby50km.metadata.count * 2;
if (nearby250km.metadata.count > 10) riskScore += 10;
if (maxNearby >= 4) riskScore += 15;
if (maxNearby >= 5) riskScore += 25;
if (nearby500km.metadata.count > 5) riskScore += 5. -/
def riskScore (nearby50kmCount nearby250kmCount nearby500kmCount : ℕ)
    (maxNearby : ℚ) : ℕ :=
  let s0 : ℕ := 0
  let s1 := if nearby50kmCount > 0 then s0 + nearby50kmCount * 2 else s0
  let s2 := if nearby250kmCount > 10 then s1 + 10 else s1
  let s3 := if maxNearby ≥ 4 then s2 + 15 else s2
  let s4 := if maxNearby ≥ 5 then s3 + 25 else s3
  if nearby500kmCount > 5 then s4 + 5 else s4

/-- The riskLevel selection of the report handler: default low, then
high when the score is at least 50, elevated when at least 25, moderate
when at least 10. -/
def riskLevel (score : ℕ) : RiskLevel :=
  if score ≥ 50 then .high
  else if score ≥ 25 then .elevated
  else if score ≥ 10 then .moderate
  else .low

/-! ## Regional bounding boxes (module 2 report handler, lines 663-687) -/

/-- The region keys of the module-2 report handler input schema. -/
inductive RegionKey where
  | global
  | pacific
  | americas
  | asia
  | europe
deriving DecidableEq, Repr

/-- A latitude/longitude bounding box. -/
structure Bounds where
  latMin : ℚ
  latMax : ℚ
  lonMin : ℚ
  lonMax : ℚ
deriving DecidableEq, Repr

/-- The regionBounds table of the module-2 report handler. -/
def regionBounds : RegionKey → Bounds
  | .global => ⟨-90, 90, -180, 180⟩
  | .pacific => ⟨-60, 60, 100, -100⟩
  | .americas => ⟨-60, 70, -170, -30⟩
  | .asia => ⟨-10, 60, 60, 150⟩
  | .europe => ⟨35, 72, -25, 45⟩

/-- The per-feature predicate of filterByRegion: global passes everything,
pacific uses the dateline-crossing disjunction on longitude, every other
region uses the ordinary conjunction. -/
def inRegion (k : RegionKey) (lat lon : ℚ) : Bool :=
  match k with
  | .global => true
  | .pacific =>
      let b := regionBounds .pacific
      decide (lat ≥ b.latMin) && decide (lat ≤ b.latMax) &&
        (decide (lon ≥ b.lonMin) || decide (lon ≤ b.lonMax))
  | k =>
      let b := regionBounds k
      decide (lat ≥ b.latMin) && decide (lat ≤ b.latMax) &&
        decide (lon ≥ b.lonMin) && decide (lon ≤ b.lonMax)

/-- filterByRegion of the module-2 report handler: early return of the whole
array for global, otherwise filter by the region predicate. -/
def filterByRegion (k : RegionKey) (features : List Feature) : List Feature :=
  if k = .global then features
  else features.filter fun f => inRegion k f.latitude f.longitude

/-! ## Feed selection of the nearby handler (module 2, lines 576-580) -/

/-- The endpoint selection of the nearby handler:
minMagnitude >= 4.5 gives the 4.5 daily feed, else minMagnitude >= 2.5
gives the 2.5 daily feed, else the 1.0 daily feed. -/
def nearbyEndpoint (minMagnitude : ℚ) : String :=
  if minMagnitude ≥ 9/2 then "4.5_day.geojson"
  else if minMagnitude ≥ 5/2 then "2.5_day.geojson"
  else "1.0_day.geojson"

/-- Modelled from the spec: the claimed selection rule, choosing the
coarsest feed (highest magnitude floor, among floors 4.5 > 2.5 > 1.0)
whose magnitude floor is at least minMagnitude, and falling back to the
finest-grained feed (floor 1.0) when no feed qualifies.  This follows the
words of the claim and is compared with the source rule nearbyEndpoint. -/
def claimedNearbyEndpoint (minMagnitude : ℚ) : String :=
  if (9/2 : ℚ) ≥ minMagnitude then "4.5_day.geojson"
  else if (5/2 : ℚ) ≥ minMagnitude then "2.5_day.geojson"
  else if (1 : ℚ) ≥ minMagnitude then "1.0_day.geojson"
  else "1.0_day.geojson"

/-- Modelled from the spec, amended: the same selection rule with the
comparison direction corrected, choosing the coarsest feed whose magnitude
floor is at most minMagnitude, and falling back to the finest-grained feed
when no feed qualifies. -/
def amendedNearbyEndpoint (minMagnitude : ℚ) : String :=
  if (9/2 : ℚ) ≤ minMagnitude then "4.5_day.geojson"
  else if (5/2 : ℚ) ≤ minMagnitude then "2.5_day.geojson"
  else if (1 : ℚ) ≤ minMagnitude then "1.0_day.geojson"
  else "1.0_day.geojson"

/-! ## The top handler (module 1, lines 187-223) -/

/-- The ranking metric of the top handler. -/
inductive RankBy where
  | magnitude
  | significance
deriving DecidableEq, Repr

/-- The field compared by the top handler sort comparator: properties.mag
for magnitude ranking, properties.sig for significance ranking. -/
def rankValue : RankBy → Feature → ℚ
  | .magnitude, f => f.mag
  | .significance, f => f.sig

/-- One element of the topEarthquakes output array: the 1-based rank, the
0-based position of the record in the upstream feed (implicit in the
source: the array order before sorting), and the record itself. -/
structure RankedQuake where
  rank : ℕ
  feedIndex : ℕ
  feature : Feature
deriving DecidableEq, Repr

/-- The top handler pipeline on a fetched feed: filter by
properties.mag >= minMagnitude, sort descending by the rankBy field with
the stable Array.prototype.sort (comparator b.key - a.key), truncate with
slice(0, limit), and attach rank = i + 1.  Records are tagged with their
feed position so that stability is expressible. -/
def topQuakes (feed : List Feature) (rankBy : RankBy) (minMagnitude : ℚ)
    (limit : ℕ) : List RankedQuake :=
  let filtered := feed.enum.filter fun p => decide (p.2.mag ≥ minMagnitude)
  let sorted := filtered.mergeSort fun a b =>
    decide (rankValue rankBy b.2 ≤ rankValue rankBy a.2)
  (sorted.take limit).enum.map fun q => ⟨q.1 + 1, q.2.1, q.2.2⟩

/-! ## The nearby handler (module 2, lines 572-612) -/

/-- One element of the nearby output array: the record, its upstream feed
position, and the rounded distanceKm field added by the handler. -/
structure NearbyQuake where
  feedIndex : ℕ
  feature : Feature
  distanceKm : ℤ
deriving DecidableEq, Repr

/-- The nearby handler pipeline on a fetched feed: filter to records whose
haversine distance from the center is at most radiusKm, attach
distanceKm = Math.round(distance), and sort ascending by distanceKm with
the stable Array.prototype.sort.  The transcendental distance function is
passed in as dist (latitude, longitude of the center, then of the record);
note that no magnitude filter is applied here — minMagnitude only selects
the feed via nearbyEndpoint. -/
def nearbyQuakes (dist : ℚ → ℚ → ℚ → ℚ → ℚ) (latitude longitude radiusKm : ℚ)
    (feed : List Feature) : List NearbyQuake :=
  (((feed.enum.filter fun p =>
      decide (dist latitude longitude p.2.latitude p.2.longitude ≤ radiusKm)).map
    fun p => ⟨p.1, p.2, jsRound (dist latitude longitude p.2.latitude p.2.longitude)⟩).mergeSort
    fun a b => decide (a.distanceKm ≤ b.distanceKm) : List NearbyQuake)

/-! ## The compare handler (module 1, lines 240-296) -/

/-- One region of the compare input. -/
structure RegionInput where
  name : String
  latitude : ℚ
  longitude : ℚ
  radiusKm : ℚ
deriving DecidableEq, Repr

/-- The per-region stats object of the compare handler. -/
structure RegionStats where
  totalQuakes : ℕ
  averageMagnitude : ℚ
  maxMagnitude : ℚ
  quakesAbove4 : ℕ
  quakesAbove5 : ℕ
deriving DecidableEq, Repr

/-- One element of the comparison array of the compare handler. -/
structure RegionResult where
  region : String
  latitude : ℚ
  longitude : ℚ
  radiusKm : ℚ
  stats : RegionStats
  topQuake : Option Feature
deriving DecidableEq, Repr

/-- The reduce callback of the topQuake computation:
(max, f) => f.properties.mag > max.properties.mag ? f : max. -/
def magMaxStep (mx f : Feature) : Feature :=
  if f.mag > mx.mag then f else mx

/-- The topQuake computation of the compare handler: for a nonempty
features array, reduce(magMaxStep, features[0]); null for an empty array.
JavaScript reduce with an initial value folds over the whole array, so
features[0] is compared with itself first. -/
def topQuakeOf : List Feature → Option Feature
  | [] => none
  | h :: t => some ((h :: t).foldl magMaxStep h)

/-- The per-region result computation of the compare handler body. -/
def regionResult (region : RegionInput) (data : FeedPayload) : RegionResult :=
  let magnitudes := data.features.map (·.mag)
  let avgMag : ℚ :=
    if magnitudes.length > 0 then magnitudes.sum / magnitudes.length else 0
  let maxMag : ℚ := if magnitudes.length > 0 then maxQ magnitudes else 0
  { region := region.name
    latitude := region.latitude
    longitude := region.longitude
    radiusKm := region.radiusKm
    stats :=
      { totalQuakes := data.count
        averageMagnitude := roundTo2 avgMag
        maxMagnitude := maxMag
        quakesAbove4 := (magnitudes.filter fun m => decide (m ≥ 4)).length
        quakesAbove5 := (magnitudes.filter fun m => decide (m ≥ 5)).length }
    topQuake := topQuakeOf data.features }

/-- The ranking step of the compare handler:
[...results].sort((a, b) => b.stats.totalQuakes - a.stats.totalQuakes). -/
def compareRanked (results : List RegionResult) : List RegionResult :=
  results.mergeSort fun a b => decide (b.stats.totalQuakes ≤ a.stats.totalQuakes)

/-- The output object of the compare handler.  The source indexes
ranked[0] and ranked[ranked.length - 1], always defined because the input
schema requires 2-5 regions; head? and getLast? model that indexing. -/
structure CompareOutput where
  comparison : List RegionResult
  mostActive : Option String
  leastActive : Option String
  byTotalQuakes : List (String × ℕ)
deriving DecidableEq, Repr

/-- Assembles the compare handler output from the per-region results. -/
def compareOutput (results : List RegionResult) : CompareOutput :=
  let ranked := compareRanked results
  { comparison := results
    mostActive := ranked.head?.map (·.region)
    leastActive := ranked.getLast?.map (·.region)
    byTotalQuakes := ranked.map fun r => (r.region, r.stats.totalQuakes) }

/-! ## Network model (fetchJSON, lines 19-23, and the fan-out batches) -/

/-- Failure of one upstream fetch: the remote is unreachable (fetch
rejects) or answers a non-success status (response.ok false, on which
fetchJSON throws). -/
inductive UpstreamError where
  | unreachable
  | httpError (status : ℕ)
deriving DecidableEq, Repr

/-- An upstream HTTP response as far as fetchJSON inspects it. -/
structure HttpResponse where
  ok : Bool
  status : ℕ
  body : FeedPayload
deriving DecidableEq, Repr

/-- fetchJSON: await fetch(url) — none models an unreachable upstream —
then throw on a non-ok response, else return the parsed body. -/
def fetchJSON : Option HttpResponse → Except UpstreamError FeedPayload
  | none => .error .unreachable
  | some r => if r.ok then .ok r.body else .error (.httpError r.status)

/-- A single fetch fails: the upstream is unreachable or the response has
a non-success status. -/
def fetchFails (response : Option HttpResponse) : Prop :=
  response = none ∨ ∃ r, response = some r ∧ r.ok = false

/-- The compare handler: Promise.all over the per-region fetches (the
network is a map from region to response; URL construction from dates,
coordinates and minMagnitude is absorbed into that map), then the pure
aggregation.  Promise.all waits for all fetches and rejects whenever any
single one rejects, which the Except monad models outcome-wise. -/
def compareHandler (net : RegionInput → Option HttpResponse)
    (regions : List RegionInput) : Except UpstreamError CompareOutput := do
  let results ← regions.mapM fun r => (fetchJSON (net r)).map (regionResult r)
  pure (compareOutput results)

/-- The risk assessment part of the module-1 report output. -/
structure RiskAssessment where
  level : RiskLevel
  score : ℕ
deriving DecidableEq, Repr

/-- The module-1 report output, restricted to the derived fields. -/
structure ReportOutput where
  riskAssessment : RiskAssessment
  within50kmCount : ℕ
  within250kmCount : ℕ
  within500kmCount : ℕ
  maxNearbyMagnitude : ℚ
  avgNearbyMagnitude : ℚ
  significantCount : ℕ
deriving DecidableEq, Repr

/-- The pure computation of the module-1 report handler after its four
fetches: maxNearby and avgNearby over the 50 km feed, then riskScore and
riskLevel. -/
def reportOutput (nearby50km nearby250km nearby500km significant :
    FeedPayload) : ReportOutput :=
  let nearbyMags := nearby50km.features.map (·.mag)
  let maxNearby : ℚ := if nearbyMags.length > 0 then maxQ nearbyMags else 0
  let avgNearby : ℚ :=
    if nearbyMags.length > 0 then nearbyMags.sum / nearbyMags.length else 0
  let score := riskScore nearby50km.count nearby250km.count nearby500km.count
    maxNearby
  { riskAssessment := { level := riskLevel score, score := score }
    within50kmCount := nearby50km.count
    within250kmCount := nearby250km.count
    within500kmCount := nearby500km.count
    maxNearbyMagnitude := maxNearby
    avgNearbyMagnitude := roundTo2 avgNearby
    significantCount := significant.count }

/-- The module-1 report handler: Promise.all over four fetches (50 km
month, 250 km month, 500 km week, significant week), then the pure
output computation. -/
def reportHandler (net50 net250 net500 netSig : Option HttpResponse) :
    Except UpstreamError ReportOutput := do
  let nearby50km ← fetchJSON net50
  let nearby250km ← fetchJSON net250
  let nearby500km ← fetchJSON net500
  let significant ← fetchJSON netSig
  pure (reportOutput nearby50km nearby250km nearby500km significant)

/-- The module-1 overview output, restricted to the summary fields. -/
structure OverviewOutput where
  significantQuakesThisWeek : ℕ
  magnitude45PlusToday : ℕ
  largestThisWeek : Option Feature
deriving DecidableEq, Repr

/-- The module-1 overview handler: Promise.all over two fetches
(significant week, 4.5 day), then the summary; largestThisWeek uses the
same first-maximum reduce as the compare handler topQuake. -/
def overviewHandler (netSignificant netRecent : Option HttpResponse) :
    Except UpstreamError OverviewOutput := do
  let significant ← fetchJSON netSignificant
  let recent ← fetchJSON netRecent
  pure { significantQuakesThisWeek := significant.count
         magnitude45PlusToday := recent.count
         largestThisWeek := topQuakeOf significant.features }

/-! ## Input validation (zod schemas of search, lines 136-144, and
compare, lines 230-238) -/

/-- The search input after zod defaulting. -/
structure SearchInput where
  latitude : ℚ
  longitude : ℚ
  radiusKm : ℚ
  minMagnitude : ℚ
  maxMagnitude : Option ℚ
  daysBack : ℚ
  limit : ℚ
deriving DecidableEq, Repr

/-- The zod constraints of the search input schema: latitude in
[-90, 90], longitude in [-180, 180], radiusKm in [1, 20000], minMagnitude
in [0, 10], maxMagnitude in [0, 10] when present, daysBack in [1, 30],
limit in [1, 100]. -/
def validSearchInput (i : SearchInput) : Bool :=
  decide (-90 ≤ i.latitude) && decide (i.latitude ≤ 90) &&
  decide (-180 ≤ i.longitude) && decide (i.longitude ≤ 180) &&
  decide (1 ≤ i.radiusKm) && decide (i.radiusKm ≤ 20000) &&
  decide (0 ≤ i.minMagnitude) && decide (i.minMagnitude ≤ 10) &&
  (match i.maxMagnitude with
   | none => true
   | some m => decide (0 ≤ m) && decide (m ≤ 10)) &&
  decide (1 ≤ i.daysBack) && decide (i.daysBack ≤ 30) &&
  decide (1 ≤ i.limit) && decide (i.limit ≤ 100)

/-- The search output, restricted to the fields derived from the fetch. -/
structure SearchOutput where
  totalFound : ℕ
  earthquakes : List Feature
deriving DecidableEq, Repr

/-- An operation failure as the framework reports it: a zod validation
error (raised before the handler body, hence before any fetch) or an
upstream failure from within the handler. -/
inductive OpError where
  | validationError
  | upstream (e : UpstreamError)
deriving DecidableEq, Repr

/-- The search operation including its zod validation gate, paired with
the number of upstream calls performed: the handler issues exactly one
fetch, and an invalid input is rejected before the handler runs, with
zero fetches. -/
def searchOp (net : Option HttpResponse) (i : SearchInput) :
    Except OpError SearchOutput × ℕ :=
  if validSearchInput i then
    match fetchJSON net with
    | .ok data => (.ok ⟨data.count, data.features⟩, 1)
    | .error e => (.error (.upstream e), 1)
  else (.error .validationError, 0)

/-- The compare input after zod defaulting. -/
structure CompareInput where
  regions : List RegionInput
  minMagnitude : ℚ
deriving DecidableEq, Repr

/-- The zod constraints of one compare region: latitude in [-90, 90],
longitude in [-180, 180], radiusKm in [10, 5000]. -/
def validRegionInput (r : RegionInput) : Bool :=
  decide (-90 ≤ r.latitude) && decide (r.latitude ≤ 90) &&
  decide (-180 ≤ r.longitude) && decide (r.longitude ≤ 180) &&
  decide (10 ≤ r.radiusKm) && decide (r.radiusKm ≤ 5000)

/-- The zod constraints of the compare input schema: 2 to 5 regions, each
valid, minMagnitude in [0, 10]. -/
def validCompareInput (i : CompareInput) : Bool :=
  decide (2 ≤ i.regions.length) && decide (i.regions.length ≤ 5) &&
  i.regions.all validRegionInput &&
  decide (0 ≤ i.minMagnitude) && decide (i.minMagnitude ≤ 10)

/-- The compare operation including its zod validation gate, paired with
the number of upstream calls performed: Promise.all issues all region
fetches at once, and an invalid input is rejected before the handler
runs, with zero fetches. -/
def compareOp (net : RegionInput → Option HttpResponse) (i : CompareInput) :
    Except OpError CompareOutput × ℕ :=
  if validCompareInput i then
    match compareHandler net i.regions with
    | .ok out => (.ok out, i.regions.length)
    | .error e => (.error (.upstream e), i.regions.length)
  else (.error .validationError, 0)

/-! ## Transcendental operations for haversineDistance (module 2,
lines 429-438) -/

/-- The floating-point operations used by haversineDistance, modelled as
an explicit record over the rationals: any implementation satisfying the
algebraic facts stated in the theorems is covered. -/
structure TrigOps where
  sin : ℚ → ℚ
  cos : ℚ → ℚ
  sqrt : ℚ → ℚ
  atan2 : ℚ → ℚ → ℚ
  pi : ℚ

/-- haversineDistance of module 2: Earth radius 6371 km, the haversine
formula written exactly as in the source. -/
def haversineDistance (ops : TrigOps) (lat1 lon1 lat2 lon2 : ℚ) : ℚ :=
  let R : ℚ := 6371
  let dLat := (lat2 - lat1) * ops.pi / 180
  let dLon := (lon2 - lon1) * ops.pi / 180
  let a := ops.sin (dLat / 2) * ops.sin (dLat / 2) +
    ops.cos (lat1 * ops.pi / 180) * ops.cos (lat2 * ops.pi / 180) *
    ops.sin (dLon / 2) * ops.sin (dLon / 2)
  let c := 2 * ops.atan2 (ops.sqrt a) (ops.sqrt (1 - a))
  R * c

/-! ## Concrete data used by the witness theorems -/

/-- A concrete record of magnitude 6. -/
def wFeatureA : Feature := ⟨"idA", 6, 100, "place A", 10, 20, 5⟩

/-- A concrete record of magnitude 2 (below a minMagnitude of 3). -/
def wFeatureLow : Feature := ⟨"idLow", 2, 10, "place Low", 30, 40, 8⟩

/-- A concrete distance function that is identically zero. -/
def wDist : ℚ → ℚ → ℚ → ℚ → ℚ := fun _ _ _ _ => 0

/-- Trigonometric operations witnessing the hypotheses of the haversine
theorem: sin is odd, sqrt fixes 0 and 1, atan2 0 1 = 0. -/
def wTrigOps : TrigOps :=
  { sin := fun x => x
    cos := fun _ => 1
    sqrt := fun x => x
    atan2 := fun y _ => y
    pi := 0 }

/-- A concrete region input. -/
def wRegion1 : RegionInput := ⟨"R1", 0, 0, 500⟩

/-- A second concrete region input. -/
def wRegion2 : RegionInput := ⟨"R2", 10, 10, 500⟩

/-- A network on which every fetch is unreachable. -/
def wBadNet : RegionInput → Option HttpResponse := fun _ => none

/-- Region results with total quake counts 5, 3, 3, 0, as in the compare
ranking example; the 4th region has an empty features array and the
others reuse it, since only metadata.count feeds the ranking. -/
def wCompareResults : List RegionResult :=
  [regionResult ⟨"A", 0, 0, 500⟩ ⟨5, []⟩,
   regionResult ⟨"B", 1, 1, 500⟩ ⟨3, []⟩,
   regionResult ⟨"C", 2, 2, 500⟩ ⟨3, []⟩,
   regionResult ⟨"D", 3, 3, 500⟩ ⟨0, []⟩]

/-- A search input whose radiusKm is 0 (below the schema minimum 1). -/
def wSearchRadius0 : SearchInput := ⟨0, 0, 0, 5/2, none, 7, 20⟩

/-- A search input whose radiusKm is 25000 (above the schema maximum
20000). -/
def wSearchRadius25000 : SearchInput := ⟨0, 0, 25000, 5/2, none, 7, 20⟩

/-- A compare input with a single region (below the schema minimum 2). -/
def wCompare1 : CompareInput := ⟨[wRegion1], 5/2⟩

/-- A compare input with six regions (above the schema maximum 5). -/
def wCompare6 : CompareInput :=
  ⟨[wRegion1, wRegion2, wRegion1, wRegion2, wRegion1, wRegion2], 5/2⟩

/-! ## Helper lemmas: stability of the stable Array.prototype.sort model -/

/-- Two members of a list sorted strictly by an index form a sublist in
index order. -/
theorem pair_sublist_of_mem {α : Type} (idx : α → ℕ) :
    ∀ {l : List α}, (l.Pairwise fun a b => idx a < idx b) →
      ∀ {a b : α}, a ∈ l → b ∈ l → idx a < idx b → List.Sublist [a, b] l := by
  intro l
  induction l with
  | nil => intro _ a b ha; cases ha
  | cons x t ih =>
    intro hl a b ha hb hab
    rw [List.pairwise_cons] at hl
    rcases List.mem_cons.mp ha with rfl | ha2
    · rcases List.mem_cons.mp hb with rfl | hb2
      · exact absurd hab (lt_irrefl _)
      · exact (List.singleton_sublist.mpr hb2).cons₂ a
    · rcases List.mem_cons.mp hb with rfl | hb2
      · exact absurd hab (not_lt.mpr (le_of_lt (hl.1 a ha2)))
      · exact (ih hl.2 ha2 hb2 hab).cons x

/-- On a list sorted strictly by an index, the index is injective on
members. -/
theorem idx_inj_of_pairwise {α : Type} (idx : α → ℕ) :
    ∀ {l : List α}, (l.Pairwise fun a b => idx a < idx b) →
      ∀ {a b : α}, a ∈ l → b ∈ l → idx a = idx b → a = b := by
  intro l
  induction l with
  | nil => intro _ a b ha; cases ha
  | cons x t ih =>
    intro hl a b ha hb hab
    rw [List.pairwise_cons] at hl
    rcases List.mem_cons.mp ha with rfl | ha2
    · rcases List.mem_cons.mp hb with rfl | hb2
      · rfl
      · exact absurd (hl.1 b hb2) (by omega)
    · rcases List.mem_cons.mp hb with rfl | hb2
      · exact absurd (hl.1 a ha2) (by omega)
      · exact ih hl.2 ha2 hb2 hab

/-- A list sorted strictly by an index has no duplicates. -/
theorem nodup_of_pairwise_idx {α : Type} (idx : α → ℕ) {l : List α}
    (hl : l.Pairwise fun a b => idx a < idx b) : l.Nodup :=
  hl.imp fun h => by
    intro he
    subst he
    exact absurd h (lt_irrefl _)

/-- Stability of mergeSort, in pairwise form: on a list sorted strictly
by an index, two output elements the comparison function ties (the later
one also sorts no later than the earlier) keep their index order. -/
theorem mergeSort_idx_stable {α : Type} (le : α → α → Bool) (idx : α → ℕ)
    (trans : ∀ a b c, le a b → le b c → le a c)
    (total : ∀ a b, le a b || le b a)
    {l : List α} (hl : l.Pairwise fun a b => idx a < idx b) :
    (l.mergeSort le).Pairwise fun a b => le b a = true → idx a < idx b := by
  have hnd : (l.mergeSort le).Nodup :=
    ((List.mergeSort_perm l le).nodup_iff).mpr (nodup_of_pairwise_idx idx hl)
  rw [List.pairwise_iff_getElem]
  intro i j hi hj hij hba
  have hmema : (l.mergeSort le)[i] ∈ l :=
    List.mem_mergeSort.mp (List.getElem_mem hi)
  have hmemb : (l.mergeSort le)[j] ∈ l :=
    List.mem_mergeSort.mp (List.getElem_mem hj)
  rcases lt_trichotomy (idx (l.mergeSort le)[i]) (idx (l.mergeSort le)[j])
    with h | h | h
  · exact h
  · exfalso
    have he : (l.mergeSort le)[i] = (l.mergeSort le)[j] :=
      idx_inj_of_pairwise idx hl hmema hmemb h
    exact absurd ((hnd.getElem_inj_iff).mp he) (by omega)
  · exfalso
    have hsub : List.Sublist [(l.mergeSort le)[j], (l.mergeSort le)[i]] l :=
      pair_sublist_of_mem idx hl hmemb hmema h
    have hsub2 : List.Sublist [(l.mergeSort le)[j], (l.mergeSort le)[i]]
        (l.mergeSort le) :=
      List.sublist_mergeSort trans total (List.pairwise_pair.mpr hba) hsub
    obtain ⟨is, his, hpw⟩ := List.sublist_eq_map_getElem hsub2
    have hlen : is.length = 2 := by
      have := congrArg List.length his
      simpa using this.symm
    rcases is with _ | ⟨i1, _ | ⟨i2, _ | _⟩⟩ <;> simp at hlen
    simp only [List.map_cons, List.map_nil, List.cons.injEq, and_true] at his
    rw [List.pairwise_cons] at hpw
    have h1 : (i1 : ℕ) < (i2 : ℕ) := hpw.1 i2 (List.mem_singleton.mpr rfl)
    have e1 : (i1 : ℕ) = j := (hnd.getElem_inj_iff).mp his.1.symm
    have e2 : (i2 : ℕ) = i := (hnd.getElem_inj_iff).mp his.2.symm
    omega

/-- enum produces a list sorted strictly by first components. -/
theorem pairwise_fst_lt_enum {α : Type} (l : List α) :
    l.enum.Pairwise fun a b => a.1 < b.1 := by
  rw [List.pairwise_iff_getElem]
  intro i j hi hj hij
  rw [List.getElem_enum, List.getElem_enum]
  exact hij

/-- A pairwise relation on a list lifts through enum to the second
components. -/
theorem pairwise_enum_snd {α : Type} {S : α → α → Prop} {l : List α}
    (h : l.Pairwise S) : l.enum.Pairwise fun a b => S a.2 b.2 := by
  rw [List.pairwise_iff_getElem] at h ⊢
  intro i j hi hj hij
  rw [List.getElem_enum, List.getElem_enum]
  exact h i j (by simpa using hi) (by simpa using hj) hij

/-! ## Helper lemmas: the first-maximum reduce -/

/-- The starting value never exceeds a left fold of max. -/
theorem le_foldl_max (l : List ℚ) : ∀ (b : ℚ), b ≤ l.foldl max b := by
  induction l with
  | nil => intro b; exact le_refl b
  | cons x t ih =>
    intro b
    calc b ≤ max b x := le_max_left b x
    _ ≤ t.foldl max (max b x) := ih (max b x)

/-- Every member is bounded by a left fold of max over the list. -/
theorem mem_le_foldl_max (l : List ℚ) :
    ∀ (b : ℚ), ∀ q ∈ l, q ≤ l.foldl max b := by
  induction l with
  | nil => intro b q hq; cases hq
  | cons x t ih =>
    intro b q hq
    rcases List.mem_cons.mp hq with rfl | hq2
    · calc q ≤ max b q := le_max_right b q
      _ ≤ t.foldl max (max b q) := le_foldl_max t _
    · exact ih (max b x) q hq2

/-- The magnitude of one reduce step is the max of the two magnitudes. -/
theorem magMaxStep_mag (mx f : Feature) :
    (magMaxStep mx f).mag = max mx.mag f.mag := by
  unfold magMaxStep
  split
  · exact (max_eq_right (le_of_lt (by assumption))).symm
  · exact (max_eq_left (not_lt.mp (by assumption))).symm

/-- The first-maximum reduce agrees with find? for the running maximum
magnitude: the reduce keeps the earliest record attaining the overall
maximum. -/
theorem foldl_magMaxStep_find :
    ∀ (t : List Feature) (acc : Feature),
      (acc :: t).find? (fun f => decide ((t.map (·.mag)).foldl max acc.mag ≤ f.mag)) =
        some (t.foldl magMaxStep acc) := by
  intro t
  induction t with
  | nil =>
    intro acc
    simp [List.find?]
  | cons f t2 ih =>
    intro acc
    have hstep : (magMaxStep acc f).mag = max acc.mag f.mag := magMaxStep_mag acc f
    have hfold : (f :: t2).foldl magMaxStep acc = t2.foldl magMaxStep (magMaxStep acc f) := by
      simp [List.foldl_cons]
    rw [hfold]
    have ihs := ih (magMaxStep acc f)
    rw [hstep] at ihs
    have hm : ((f :: t2).map (·.mag)).foldl max acc.mag =
        (t2.map (·.mag)).foldl max (max acc.mag f.mag) := by
      simp [List.foldl_cons]
    set m := (t2.map (·.mag)).foldl max (max acc.mag f.mag) with hmdef
    have hfm : f.mag ≤ m := le_trans (le_max_right acc.mag f.mag) (le_foldl_max _ _)
    rw [show (fun g : Feature => decide (((f :: t2).map (·.mag)).foldl max acc.mag ≤ g.mag)) =
        (fun g : Feature => decide (m ≤ g.mag)) from by rw [hm]]
    by_cases hgt : f.mag > acc.mag
    · have hsf : magMaxStep acc f = f := by unfold magMaxStep; exact if_pos hgt
      rw [hsf] at ihs
      have hpa : ¬ ((fun g : Feature => decide (m ≤ g.mag)) acc = true) := by
        simp only [decide_eq_true_eq]
        intro hle
        exact absurd (lt_of_lt_of_le hgt (le_trans hfm hle)) (lt_irrefl _)
      rw [List.find?_cons_of_neg (p := fun g : Feature => decide (m ≤ g.mag)) _ hpa, hsf]
      exact ihs
    · have hsf : magMaxStep acc f = acc := by unfold magMaxStep; exact if_neg hgt
      rw [hsf] at ihs
      rw [hsf]
      by_cases hpa : m ≤ acc.mag
      · have hpaT : ((fun g : Feature => decide (m ≤ g.mag)) acc) = true := by
          simpa using hpa
        rw [List.find?_cons_of_pos (p := fun g : Feature => decide (m ≤ g.mag)) _ hpaT]
        rw [List.find?_cons_of_pos (p := fun g : Feature => decide (m ≤ g.mag)) _ hpaT] at ihs
        exact ihs
      · have hpaf : ¬ ((fun g : Feature => decide (m ≤ g.mag)) acc = true) := by
          simpa using hpa
        have hpff : ¬ ((fun g : Feature => decide (m ≤ g.mag)) f = true) := by
          simp only [decide_eq_true_eq]
          intro hle
          exact hpa (le_trans hle (not_lt.mp hgt))
        rw [List.find?_cons_of_neg (p := fun g : Feature => decide (m ≤ g.mag)) _ hpaf,
          List.find?_cons_of_neg (p := fun g : Feature => decide (m ≤ g.mag)) _ hpff]
        rw [List.find?_cons_of_neg (p := fun g : Feature => decide (m ≤ g.mag)) _ hpaf] at ihs
        exact ihs

/-- The topQuake reduce returns the first record attaining the maximum
magnitude, in find? form. -/
theorem topQuakeOf_eq_find (l : List Feature) :
    topQuakeOf l = l.find? fun f => decide (maxQ (l.map (·.mag)) ≤ f.mag) := by
  cases l with
  | nil => rfl
  | cons h t =>
    have hsh : magMaxStep h h = h := by
      unfold magMaxStep
      exact if_neg (lt_irrefl _)
    show some ((h :: t).foldl magMaxStep h) = _
    rw [List.foldl_cons, hsh]
    have hmq : maxQ ((h :: t).map (·.mag)) = (t.map (·.mag)).foldl max h.mag := by
      simp [maxQ]
    rw [hmq]
    exact (foldl_magMaxStep_find t h).symm

/-! ## Helper lemmas: error propagation through a fetch batch -/

/-- mapM over Except fails whenever any list element fails. -/
theorem mapM_error_of_mem {β γ ε : Type} (f : β → Except ε γ) :
    ∀ (l : List β), (∃ b ∈ l, ∃ e, f b = .error e) →
      ∃ e, l.mapM f = .error e := by
  intro l
  induction l with
  | nil => rintro ⟨b, hb, _⟩; cases hb
  | cons x t ih =>
    rintro ⟨b, hb, e, he⟩
    cases hfx : f x with
    | error e2 =>
      refine ⟨e2, ?_⟩
      rw [List.mapM_cons, hfx]
      rfl
    | ok v =>
      rcases List.mem_cons.mp hb with rfl | hb2
      · rw [hfx] at he; cases he
      · obtain ⟨e3, he3⟩ := ih ⟨b, hb2, e, he⟩
        refine ⟨e3, ?_⟩
        rw [List.mapM_cons, hfx, he3]
        rfl

/-- A failing fetch makes fetchJSON return an error. -/
theorem fetchJSON_error_of_fails {response : Option HttpResponse}
    (h : fetchFails response) : ∃ e, fetchJSON response = .error e := by
  rcases h with rfl | ⟨r, rfl, hok⟩
  · exact ⟨.unreachable, rfl⟩
  · exact ⟨.httpError r.status, by simp [fetchJSON, hok]⟩

/-- The length of a filter after a map counts the composed predicate. -/
theorem length_filter_map_eq_countP {α β : Type} (g : α → β) (p : β → Bool)
    (l : List α) : ((l.map g).filter p).length = l.countP fun a => p (g a) := by
  induction l with
  | nil => rfl
  | cons x t ih =>
    simp only [List.map_cons, List.filter_cons, List.countP_cons]
    cases hp : p (g x) <;> simp [hp, ih]

/-- The second component of an enum member is a member of the list. -/
theorem snd_mem_of_mem_enum {α : Type} {p : ℕ × α} {l : List α}
    (h : p ∈ l.enum) : p.2 ∈ l := by
  have h2 : p.2 ∈ l.enum.map Prod.snd := List.mem_map_of_mem Prod.snd h
  rwa [List.enum_eq_enumFrom, List.enumFrom_map_snd] at h2

/-! ## Claim theorems -/

/-- C1 (counterexample to the claim as stated): at counts (3, 12, 8) and
maximum nearby magnitude 5.2 the risk score is not 66; the claimed
example value 66 is an arithmetic slip, since
2*3 + 10 + 15 + 25 + 5 = 61. -/
theorem c1_risk_score_counterexample : riskScore 3 12 8 (26/5) ≠ 66 := by
  norm_num [riskScore]

/-- C1 (amended): the risk score equals
2*nearby50kmCount + (10 if nearby250kmCount>10) + (15 if maxNearby>=4) +
(25 if maxNearby>=5) + (5 if nearby500kmCount>5); the level is high iff
score>=50, elevated iff 25<=score<50, moderate iff 10<=score<25, low iff
score<10; and inputs (3, 12, 8, 5.2) yield score 61 and level high. -/
theorem c1_risk_score_and_level (c50 c250 c500 : ℕ) (m : ℚ) (s : ℕ) :
    (riskScore c50 c250 c500 m =
      2 * c50 + (if c250 > 10 then 10 else 0) + (if m ≥ 4 then 15 else 0) +
        (if m ≥ 5 then 25 else 0) + (if c500 > 5 then 5 else 0))
    ∧ (riskLevel s = .high ↔ s ≥ 50)
    ∧ (riskLevel s = .elevated ↔ s ≥ 25 ∧ s < 50)
    ∧ (riskLevel s = .moderate ↔ s ≥ 10 ∧ s < 25)
    ∧ (riskLevel s = .low ↔ s < 10)
    ∧ riskScore 3 12 8 (26/5) = 61
    ∧ riskLevel (riskScore 3 12 8 (26/5)) = .high := by
  have hs : riskScore 3 12 8 (26/5) = 61 := by norm_num [riskScore]
  refine ⟨?_, ?_, ?_, ?_, ?_, hs, ?_⟩
  · simp only [riskScore]
    split_ifs <;> omega
  · unfold riskLevel
    split_ifs <;> simp <;> omega
  · unfold riskLevel
    split_ifs <;> simp <;> omega
  · unfold riskLevel
    split_ifs <;> simp <;> omega
  · unfold riskLevel
    split_ifs <;> simp <;> omega
  · rw [hs]
    rfl

/-- C7: for every region whose bounding box crosses the antimeridian
(lonMin > lonMax — among the configured regions, exactly the pacific),
membership is the latitude range conjoined with the longitude
disjunction lon >= lonMin OR lon <= lonMax; and for the pacific box
(lonMin = 100, lonMax = -100) longitude 170 and -170 are accepted while
longitude 0 is rejected. -/
theorem c7_bounding_box :
    (∀ (k : RegionKey) (lat lon : ℚ),
        (regionBounds k).lonMin > (regionBounds k).lonMax →
        (inRegion k lat lon = true ↔
          ((regionBounds k).latMin ≤ lat ∧ lat ≤ (regionBounds k).latMax ∧
            (lon ≥ (regionBounds k).lonMin ∨ lon ≤ (regionBounds k).lonMax))))
    ∧ inRegion .pacific 0 170 = true
    ∧ inRegion .pacific 0 (-170) = true
    ∧ inRegion .pacific 0 0 = false := by
  refine ⟨?_, by decide, by decide, by decide⟩
  intro k lat lon h
  cases k
  · exfalso
    norm_num [regionBounds] at h
  · simp only [inRegion, regionBounds, Bool.and_eq_true, Bool.or_eq_true,
      decide_eq_true_eq, ge_iff_le]
    tauto
  · exfalso
    norm_num [regionBounds] at h
  · exfalso
    norm_num [regionBounds] at h
  · exfalso
    norm_num [regionBounds] at h

/-- C7 witness: the antimeridian membership equivalence instantiated at
the pacific box and the point (0, 170). -/
theorem c7_bounding_box_witness :
    inRegion .pacific 0 170 = true ↔
      ((regionBounds .pacific).latMin ≤ 0 ∧ (0:ℚ) ≤ (regionBounds .pacific).latMax ∧
        ((170:ℚ) ≥ (regionBounds .pacific).lonMin ∨
          (170:ℚ) ≤ (regionBounds .pacific).lonMax)) :=
  c7_bounding_box.1 .pacific 0 170 (by decide)

/-- C8 (counterexample to the claim as stated): minMagnitude 2.5 and 2.6
select the same feed (both the 2.5 daily feed), and the rule as worded
(coarsest feed with floor >= minMagnitude) disagrees with the source at
minMagnitude 3, where it would pick the 4.5 feed while the source picks
the 2.5 feed. -/
theorem c8_feed_selection_counterexample :
    nearbyEndpoint (5/2) = nearbyEndpoint (13/5)
    ∧ claimedNearbyEndpoint 3 ≠ nearbyEndpoint 3 := by
  constructor
  · norm_num [nearbyEndpoint]
  · have h1 : claimedNearbyEndpoint 3 = "4.5_day.geojson" := by
      norm_num [claimedNearbyEndpoint]
    have h2 : nearbyEndpoint 3 = "2.5_day.geojson" := by
      norm_num [nearbyEndpoint]
    rw [h1, h2]
    decide

/-- C8 (amended): the nearby handler selects the coarsest daily feed
whose magnitude floor is at most minMagnitude, falling back to the
finest-grained feed when none qualifies; in particular minMagnitude 2.4
and 2.5 select different feeds. -/
theorem c8_feed_selection :
    (∀ m : ℚ, nearbyEndpoint m = amendedNearbyEndpoint m)
    ∧ nearbyEndpoint (12/5) ≠ nearbyEndpoint (5/2) := by
  constructor
  · intro m
    unfold nearbyEndpoint amendedNearbyEndpoint
    split_ifs <;> rfl
  · have h1 : nearbyEndpoint (12/5) = "1.0_day.geojson" := by
      norm_num [nearbyEndpoint]
    have h2 : nearbyEndpoint (5/2) = "2.5_day.geojson" := by
      norm_num [nearbyEndpoint]
    rw [h1, h2]
    decide

/-- C4: per region, the compare handler yields mean and max magnitude 0
(not NaN) on an empty record list, counts of magnitude at least 4 and at
least 5, and a topQuake that is the first-occurring record of maximal
magnitude; over 2 to 5 regions it ranks by total count descending, with
mostActive a region of maximal count and leastActive one of minimal
count; counts [5, 3, 3, 0] put the 5-count region first and the 0-count
region last. -/
theorem c4_compare_stats_and_ranking :
    (∀ (r : RegionInput) (count : ℕ),
        (regionResult r ⟨count, []⟩).stats.averageMagnitude = 0 ∧
        (regionResult r ⟨count, []⟩).stats.maxMagnitude = 0)
    ∧ (∀ (r : RegionInput) (data : FeedPayload),
        (regionResult r data).stats.quakesAbove4 =
            data.features.countP (fun f => decide (f.mag ≥ 4)) ∧
        (regionResult r data).stats.quakesAbove5 =
            data.features.countP (fun f => decide (f.mag ≥ 5)))
    ∧ (∀ (r : RegionInput) (data : FeedPayload),
        (regionResult r data).topQuake =
          data.features.find? fun f =>
            decide (maxQ (data.features.map (·.mag)) ≤ f.mag))
    ∧ (∀ (results : List RegionResult),
        2 ≤ results.length → results.length ≤ 5 →
        (∃ m, (compareRanked results).head? = some m ∧
            ∀ r ∈ results, r.stats.totalQuakes ≤ m.stats.totalQuakes) ∧
        (∃ m, (compareRanked results).getLast? = some m ∧
            ∀ r ∈ results, m.stats.totalQuakes ≤ r.stats.totalQuakes))
    ∧ ((compareOutput wCompareResults).mostActive = some "A" ∧
        (compareOutput wCompareResults).leastActive = some "D") := by
  have htrans : ∀ a b c : RegionResult,
      (fun a b : RegionResult =>
        decide (b.stats.totalQuakes ≤ a.stats.totalQuakes)) a b →
      (fun a b : RegionResult =>
        decide (b.stats.totalQuakes ≤ a.stats.totalQuakes)) b c →
      (fun a b : RegionResult =>
        decide (b.stats.totalQuakes ≤ a.stats.totalQuakes)) a c := by
    intro a b c h1 h2
    simp only [decide_eq_true_eq] at h1 h2 ⊢
    omega
  have htotal : ∀ a b : RegionResult,
      ((fun a b : RegionResult =>
        decide (b.stats.totalQuakes ≤ a.stats.totalQuakes)) a b ||
       (fun a b : RegionResult =>
        decide (b.stats.totalQuakes ≤ a.stats.totalQuakes)) b a) := by
    intro a b
    simp only [Bool.or_eq_true, decide_eq_true_eq]
    omega
  refine ⟨?_, ?_, ?_, ?_, ?_⟩
  · intro r count
    constructor
    · show roundTo2 (if ([] : List Feature).length > 0 then _ else 0) = 0
      norm_num [roundTo2, jsRound]
    · rfl
  · intro r data
    constructor
    · exact length_filter_map_eq_countP (·.mag) (fun m => decide (m ≥ 4)) data.features
    · exact length_filter_map_eq_countP (·.mag) (fun m => decide (m ≥ 5)) data.features
  · intro r data
    exact topQuakeOf_eq_find data.features
  · intro results h2 h5
    have hsorted := List.sorted_mergeSort htrans htotal results
    have hperm := List.mergeSort_perm results
      (fun a b : RegionResult => decide (b.stats.totalQuakes ≤ a.stats.totalQuakes))
    have hlen : (compareRanked results).length = results.length := by
      simp [compareRanked, List.length_mergeSort]
    constructor
    · cases hr : compareRanked results with
      | nil =>
        exfalso
        rw [hr] at hlen
        simp at hlen
        omega
      | cons m rest =>
        refine ⟨m, rfl, ?_⟩
        intro r hrmem
        have hmem2 : r ∈ compareRanked results := by
          show r ∈ results.mergeSort _
          exact List.mem_mergeSort.mpr hrmem
        rw [hr] at hmem2
        have hpw : (m :: rest).Pairwise (fun a b : RegionResult =>
            decide (b.stats.totalQuakes ≤ a.stats.totalQuakes) = true) := by
          rw [← hr]
          exact hsorted
        rcases List.mem_cons.mp hmem2 with rfl | hmem3
        · exact le_refl _
        · have := (List.pairwise_cons.mp hpw).1 r hmem3
          simpa using this
    · have hrevpw : (compareRanked results).reverse.Pairwise
          (fun a b : RegionResult =>
            decide (a.stats.totalQuakes ≤ b.stats.totalQuakes) = true) := by
        rw [List.pairwise_reverse]
        exact hsorted
      cases hrev : (compareRanked results).reverse with
      | nil =>
        exfalso
        have := congrArg List.length hrev
        simp only [List.length_reverse, List.length_nil] at this
        omega
      | cons m rest =>
        refine ⟨m, ?_, ?_⟩
        · rw [List.getLast?_eq_head?_reverse, hrev]
          rfl
        · intro r hrmem
          have hmem2 : r ∈ (compareRanked results).reverse := by
            rw [List.mem_reverse]
            show r ∈ results.mergeSort _
            exact List.mem_mergeSort.mpr hrmem
          rw [hrev] at hmem2
          rw [hrev] at hrevpw
          rcases List.mem_cons.mp hmem2 with rfl | hmem3
          · exact le_refl _
          · have := (List.pairwise_cons.mp hrevpw).1 r hmem3
            simpa using this
  · have hr : compareRanked wCompareResults = wCompareResults := by
      simp only [compareRanked]
      exact List.mergeSort_of_sorted (by decide)
    constructor
    · simp only [compareOutput]
      rw [hr]
      rfl
    · simp only [compareOutput]
      rw [hr]
      rfl

/-- C4 witness: the ranking conclusions instantiated at the concrete
four-region results with counts [5, 3, 3, 0]. -/
theorem c4_compare_stats_and_ranking_witness :
    (∃ m, (compareRanked wCompareResults).head? = some m ∧
        ∀ r ∈ wCompareResults, r.stats.totalQuakes ≤ m.stats.totalQuakes)
    ∧ (∃ m, (compareRanked wCompareResults).getLast? = some m ∧
        ∀ r ∈ wCompareResults, m.stats.totalQuakes ≤ r.stats.totalQuakes) :=
  c4_compare_stats_and_ranking.2.2.2.1 wCompareResults (by decide) (by decide)

/-- C9: for any implementation of the transcendental operations in which
sin is odd, sqrt fixes 0 and 1, and atan2 0 1 = 0 (all true of the real
functions the floating-point library approximates), haversineDistance is
symmetric in its two points and zero on identical points. -/
theorem c9_haversine (ops : TrigOps)
    (hodd : ∀ x, ops.sin (-x) = - ops.sin x)
    (hsqrt0 : ops.sqrt 0 = 0) (hsqrt1 : ops.sqrt 1 = 1)
    (hatan : ops.atan2 0 1 = 0) :
    (∀ lat1 lon1 lat2 lon2,
        haversineDistance ops lat1 lon1 lat2 lon2 =
          haversineDistance ops lat2 lon2 lat1 lon1)
    ∧ ∀ lat lon, haversineDistance ops lat lon lat lon = 0 := by
  have hsin0 : ops.sin 0 = 0 := by
    have h := hodd 0
    rw [neg_zero] at h
    linarith
  have key : ∀ u v : ℚ,
      ops.sin ((u - v) * ops.pi / 180 / 2) * ops.sin ((u - v) * ops.pi / 180 / 2) =
        ops.sin ((v - u) * ops.pi / 180 / 2) * ops.sin ((v - u) * ops.pi / 180 / 2) := by
    intro u v
    have h : (u - v) * ops.pi / 180 / 2 = -((v - u) * ops.pi / 180 / 2) := by ring
    rw [h, hodd]
    ring
  constructor
  · intro lat1 lon1 lat2 lon2
    have hA :
        ops.sin ((lat2 - lat1) * ops.pi / 180 / 2) * ops.sin ((lat2 - lat1) * ops.pi / 180 / 2) +
          ops.cos (lat1 * ops.pi / 180) * ops.cos (lat2 * ops.pi / 180) *
            ops.sin ((lon2 - lon1) * ops.pi / 180 / 2) * ops.sin ((lon2 - lon1) * ops.pi / 180 / 2) =
        ops.sin ((lat1 - lat2) * ops.pi / 180 / 2) * ops.sin ((lat1 - lat2) * ops.pi / 180 / 2) +
          ops.cos (lat2 * ops.pi / 180) * ops.cos (lat1 * ops.pi / 180) *
            ops.sin ((lon1 - lon2) * ops.pi / 180 / 2) * ops.sin ((lon1 - lon2) * ops.pi / 180 / 2) := by
      linear_combination (key lat2 lat1) +
        ops.cos (lat1 * ops.pi / 180) * ops.cos (lat2 * ops.pi / 180) * (key lon2 lon1)
    simp only [haversineDistance]
    rw [hA]
  · intro lat lon
    simp only [haversineDistance]
    have hlat : (lat - lat) * ops.pi / 180 / 2 = 0 := by ring
    have hlon : (lon - lon) * ops.pi / 180 / 2 = 0 := by ring
    rw [hlat, hlon, hsin0]
    have e1 : (0:ℚ) * 0 +
        ops.cos (lat * ops.pi / 180) * ops.cos (lat * ops.pi / 180) * 0 * 0 = 0 := by
      ring
    rw [e1]
    have e2 : (1:ℚ) - 0 = 1 := by norm_num
    rw [e2, hsqrt0, hsqrt1, hatan]
    ring

/-- C9 witness: the haversine symmetry and identity facts at concrete
points, under concrete operations satisfying the hypotheses. -/
theorem c9_haversine_witness :
    haversineDistance wTrigOps 10 20 30 40 = haversineDistance wTrigOps 30 40 10 20
    ∧ haversineDistance wTrigOps 10 20 10 20 = 0 :=
  ⟨(c9_haversine wTrigOps (fun _ => rfl) rfl rfl rfl).1 10 20 30 40,
   (c9_haversine wTrigOps (fun _ => rfl) rfl rfl rfl).2 10 20⟩

/-- C5: whenever any single fetch of a fan-out batch fails (unreachable
upstream or non-success response), the whole operation fails and no
partial result is returned: for the per-region batch of compare, the
four-feed batch of report, and the two-feed batch of overview. -/
theorem c5_fan_out_fail_fast :
    (∀ (net : RegionInput → Option HttpResponse) (regions : List RegionInput),
        (∃ r ∈ regions, fetchFails (net r)) →
        ∃ e, compareHandler net regions = .error e)
    ∧ (∀ net50 net250 net500 netSig,
        fetchFails net50 ∨ fetchFails net250 ∨ fetchFails net500 ∨ fetchFails netSig →
        ∃ e, reportHandler net50 net250 net500 netSig = .error e)
    ∧ (∀ netSignificant netRecent,
        fetchFails netSignificant ∨ fetchFails netRecent →
        ∃ e, overviewHandler netSignificant netRecent = .error e) := by
  refine ⟨?_, ?_, ?_⟩
  · rintro net regions ⟨r, hr, hf⟩
    obtain ⟨e, he⟩ := fetchJSON_error_of_fails hf
    obtain ⟨e2, he2⟩ := mapM_error_of_mem
      (fun r => (fetchJSON (net r)).map (regionResult r)) regions
      ⟨r, hr, e, by
        show Except.map (regionResult r) (fetchJSON (net r)) = Except.error e
        rw [he]
        rfl⟩
    exact ⟨e2, by simp only [compareHandler]; rw [he2]; rfl⟩
  · intro n50 n250 n500 nsig h
    cases h1 : fetchJSON n50 with
    | error e => exact ⟨e, by simp only [reportHandler]; rw [h1]; rfl⟩
    | ok v1 =>
      cases h2 : fetchJSON n250 with
      | error e => exact ⟨e, by simp only [reportHandler]; rw [h1, h2]; rfl⟩
      | ok v2 =>
        cases h3 : fetchJSON n500 with
        | error e => exact ⟨e, by simp only [reportHandler]; rw [h1, h2, h3]; rfl⟩
        | ok v3 =>
          cases h4 : fetchJSON nsig with
          | error e =>
            exact ⟨e, by simp only [reportHandler]; rw [h1, h2, h3, h4]; rfl⟩
          | ok v4 =>
            exfalso
            rcases h with hf | hf | hf | hf <;>
              obtain ⟨e, he⟩ := fetchJSON_error_of_fails hf
            · rw [h1] at he; cases he
            · rw [h2] at he; cases he
            · rw [h3] at he; cases he
            · rw [h4] at he; cases he
  · intro nsig nrec h
    cases h1 : fetchJSON nsig with
    | error e => exact ⟨e, by simp only [overviewHandler]; rw [h1]; rfl⟩
    | ok v1 =>
      cases h2 : fetchJSON nrec with
      | error e => exact ⟨e, by simp only [overviewHandler]; rw [h1, h2]; rfl⟩
      | ok v2 =>
        exfalso
        rcases h with hf | hf <;> obtain ⟨e, he⟩ := fetchJSON_error_of_fails hf
        · rw [h1] at he; cases he
        · rw [h2] at he; cases he

/-- C5 witness: an unreachable region fetch fails the whole compare call,
and likewise for report and overview with unreachable feeds. -/
theorem c5_fan_out_fail_fast_witness :
    (∃ e, compareHandler wBadNet [wRegion1, wRegion2] = .error e)
    ∧ (∃ e, reportHandler none none none none = .error e)
    ∧ (∃ e, overviewHandler none none = .error e) :=
  ⟨c5_fan_out_fail_fast.1 wBadNet [wRegion1, wRegion2]
     ⟨wRegion1, by simp, Or.inl rfl⟩,
   c5_fan_out_fail_fast.2.1 none none none none (Or.inl (Or.inl rfl)),
   c5_fan_out_fail_fast.2.2 none none (Or.inl (Or.inl rfl))⟩

/-- C6: an out-of-range input — search with radiusKm below 1 or above
20000, compare with fewer than 2 or more than 5 regions — fails with a
validation error and performs zero upstream calls. -/
theorem c6_validation_before_fetch :
    (∀ (net : Option HttpResponse) (i : SearchInput),
        i.radiusKm < 1 ∨ 20000 < i.radiusKm →
        searchOp net i = (.error .validationError, 0))
    ∧ (∀ (net : RegionInput → Option HttpResponse) (i : CompareInput),
        i.regions.length < 2 ∨ 5 < i.regions.length →
        compareOp net i = (.error .validationError, 0)) := by
  constructor
  · intro net i h
    have hv : validSearchInput i = false := by
      unfold validSearchInput
      rcases h with h | h
      · have hn : ¬ (1 ≤ i.radiusKm) := by linarith
        simp [decide_eq_false hn]
      · have hn : ¬ (i.radiusKm ≤ 20000) := by linarith
        simp [decide_eq_false hn]
    simp [searchOp, hv]
  · intro net i h
    have hv : validCompareInput i = false := by
      unfold validCompareInput
      rcases h with h | h
      · have hn : ¬ (2 ≤ i.regions.length) := by omega
        simp [decide_eq_false hn]
      · have hn : ¬ (i.regions.length ≤ 5) := by omega
        simp [decide_eq_false hn]
    simp [compareOp, hv]

/-- C2: every top result satisfies the magnitude filter; the output is
non-increasing in the chosen rankBy field; records tied in that field
retain their original feed order (stability of the sort); and the rank
field of the i-th output element is i + 1. -/
theorem c2_top_ranked (feed : List Feature) (rankBy : RankBy)
    (minMagnitude : ℚ) (limit : ℕ) :
    (∀ q ∈ topQuakes feed rankBy minMagnitude limit,
        q.feature.mag ≥ minMagnitude)
    ∧ (topQuakes feed rankBy minMagnitude limit).Pairwise
        (fun a b => rankValue rankBy b.feature ≤ rankValue rankBy a.feature)
    ∧ (topQuakes feed rankBy minMagnitude limit).Pairwise
        (fun a b => rankValue rankBy a.feature = rankValue rankBy b.feature →
          a.feedIndex < b.feedIndex)
    ∧ ∀ (i : ℕ) (h : i < (topQuakes feed rankBy minMagnitude limit).length),
        ((topQuakes feed rankBy minMagnitude limit).get ⟨i, h⟩).rank = i + 1 := by
  have htrans : ∀ a b c : ℕ × Feature,
      (fun a b : ℕ × Feature =>
        decide (rankValue rankBy b.2 ≤ rankValue rankBy a.2)) a b →
      (fun a b : ℕ × Feature =>
        decide (rankValue rankBy b.2 ≤ rankValue rankBy a.2)) b c →
      (fun a b : ℕ × Feature =>
        decide (rankValue rankBy b.2 ≤ rankValue rankBy a.2)) a c := by
    intro a b c h1 h2
    simp only [decide_eq_true_eq] at h1 h2 ⊢
    exact le_trans h2 h1
  have htotal : ∀ a b : ℕ × Feature,
      ((fun a b : ℕ × Feature =>
        decide (rankValue rankBy b.2 ≤ rankValue rankBy a.2)) a b ||
       (fun a b : ℕ × Feature =>
        decide (rankValue rankBy b.2 ≤ rankValue rankBy a.2)) b a) := by
    intro a b
    simp only [Bool.or_eq_true, decide_eq_true_eq]
    exact le_total _ _
  have hfiltpw : (feed.enum.filter fun p => decide (p.2.mag ≥ minMagnitude)).Pairwise
      (fun a b : ℕ × Feature => a.1 < b.1) :=
    (pairwise_fst_lt_enum feed).filter _
  refine ⟨?_, ?_, ?_, ?_⟩
  · intro q hq
    simp only [topQuakes, List.mem_map] at hq
    obtain ⟨p, hp, rfl⟩ := hq
    have hp2 := snd_mem_of_mem_enum hp
    have hp3 := (List.take_sublist limit _).subset hp2
    have hp4 := List.mem_mergeSort.mp hp3
    have hp5 := List.of_mem_filter hp4
    simpa using hp5
  · simp only [topQuakes, List.pairwise_map]
    have hsorted := List.sorted_mergeSort htrans htotal
      (feed.enum.filter fun p => decide (p.2.mag ≥ minMagnitude))
    have hsp : ((feed.enum.filter fun p => decide (p.2.mag ≥ minMagnitude)).mergeSort
        fun a b => decide (rankValue rankBy b.2 ≤ rankValue rankBy a.2)).Pairwise
        (fun a b : ℕ × Feature => rankValue rankBy b.2 ≤ rankValue rankBy a.2) :=
      hsorted.imp fun h => by simpa using h
    exact pairwise_enum_snd (List.Pairwise.sublist (List.take_sublist limit _) hsp)
  · simp only [topQuakes, List.pairwise_map]
    have hstable := mergeSort_idx_stable
      (fun a b : ℕ × Feature => decide (rankValue rankBy b.2 ≤ rankValue rankBy a.2))
      (fun p => p.1) htrans htotal hfiltpw
    have hsp : ((feed.enum.filter fun p => decide (p.2.mag ≥ minMagnitude)).mergeSort
        fun a b => decide (rankValue rankBy b.2 ≤ rankValue rankBy a.2)).Pairwise
        (fun a b : ℕ × Feature =>
          rankValue rankBy a.2 = rankValue rankBy b.2 → a.1 < b.1) :=
      hstable.imp fun h heq => h (by simpa using le_of_eq heq)
    exact pairwise_enum_snd (List.Pairwise.sublist (List.take_sublist limit _) hsp)
  · intro i h
    simp only [topQuakes, List.get_eq_getElem, List.getElem_map, List.getElem_enum]

/-- Evaluation of the top pipeline on a one-record feed. -/
theorem c2_top_singleton_eq :
    topQuakes [wFeatureA] .magnitude 4 10 = [⟨0 + 1, 0, wFeatureA⟩] := by
  simp only [topQuakes]
  rw [show ([wFeatureA].enum.filter fun p => decide (p.2.mag ≥ 4)) =
      [(0, wFeatureA)] from by decide]
  rw [List.mergeSort_of_sorted (by simp)]
  rfl

/-- C2 witness: the top pipeline on a one-record feed, instantiated at
its only output element: the magnitude bound and the rank field. -/
theorem c2_top_ranked_witness :
    (⟨0 + 1, 0, wFeatureA⟩ : RankedQuake).feature.mag ≥ 4
    ∧ ((topQuakes [wFeatureA] .magnitude 4 10).get
        ⟨0, by rw [c2_top_singleton_eq]; decide⟩).rank = 0 + 1 :=
  ⟨(c2_top_ranked [wFeatureA] .magnitude 4 10).1 ⟨0 + 1, 0, wFeatureA⟩
      (by rw [c2_top_singleton_eq]; exact List.mem_singleton.mpr rfl),
   (c2_top_ranked [wFeatureA] .magnitude 4 10).2.2.2 0
      (by rw [c2_top_singleton_eq]; decide)⟩

/-- C3: the nearby output is sorted ascending by its distanceKm field;
every returned record was filtered by computed distance at most radiusKm;
and records tied on the distanceKm field retain upstream feed order.
Quantified over every distance function, so it covers the
floating-point haversine in particular. -/
theorem c3_nearby_sorted (dist : ℚ → ℚ → ℚ → ℚ → ℚ)
    (latitude longitude radiusKm : ℚ) (feed : List Feature) :
    (nearbyQuakes dist latitude longitude radiusKm feed).Pairwise
        (fun a b => a.distanceKm ≤ b.distanceKm)
    ∧ (∀ q ∈ nearbyQuakes dist latitude longitude radiusKm feed,
        dist latitude longitude q.feature.latitude q.feature.longitude ≤ radiusKm)
    ∧ (nearbyQuakes dist latitude longitude radiusKm feed).Pairwise
        (fun a b => a.distanceKm = b.distanceKm → a.feedIndex < b.feedIndex) := by
  have htrans : ∀ a b c : NearbyQuake,
      (fun a b : NearbyQuake => decide (a.distanceKm ≤ b.distanceKm)) a b →
      (fun a b : NearbyQuake => decide (a.distanceKm ≤ b.distanceKm)) b c →
      (fun a b : NearbyQuake => decide (a.distanceKm ≤ b.distanceKm)) a c := by
    intro a b c h1 h2
    simp only [decide_eq_true_eq] at h1 h2 ⊢
    exact le_trans h1 h2
  have htotal : ∀ a b : NearbyQuake,
      ((fun a b : NearbyQuake => decide (a.distanceKm ≤ b.distanceKm)) a b ||
       (fun a b : NearbyQuake => decide (a.distanceKm ≤ b.distanceKm)) b a) := by
    intro a b
    simp only [Bool.or_eq_true, decide_eq_true_eq]
    exact le_total _ _
  have hmappw : (((feed.enum.filter fun p =>
      decide (dist latitude longitude p.2.latitude p.2.longitude ≤ radiusKm)).map
      fun p => (⟨p.1, p.2,
        jsRound (dist latitude longitude p.2.latitude p.2.longitude)⟩ : NearbyQuake)).Pairwise
      fun a b => a.feedIndex < b.feedIndex) := by
    rw [List.pairwise_map]
    exact (pairwise_fst_lt_enum feed).filter _
  refine ⟨?_, ?_, ?_⟩
  · have hsorted := List.sorted_mergeSort htrans htotal
      ((feed.enum.filter fun p =>
        decide (dist latitude longitude p.2.latitude p.2.longitude ≤ radiusKm)).map
        fun p => (⟨p.1, p.2,
          jsRound (dist latitude longitude p.2.latitude p.2.longitude)⟩ : NearbyQuake))
    exact hsorted.imp fun h => by simpa using h
  · intro q hq
    simp only [nearbyQuakes, List.mem_mergeSort, List.mem_map] at hq
    obtain ⟨p, hp, rfl⟩ := hq
    have hp2 := List.of_mem_filter hp
    simpa using hp2
  · have hstable := mergeSort_idx_stable
      (fun a b : NearbyQuake => decide (a.distanceKm ≤ b.distanceKm))
      (fun q => q.feedIndex) htrans htotal hmappw
    exact hstable.imp fun h heq => h (by simpa using le_of_eq heq.symm)

/-- C3 witness: the distance bound of the nearby theorem instantiated on
a one-record feed at its only output element. -/
theorem c3_nearby_sorted_witness :
    wDist 0 0 wFeatureA.latitude wFeatureA.longitude ≤ 500 :=
  (c3_nearby_sorted wDist 0 0 500 [wFeatureA]).2.1
    ⟨0, wFeatureA, jsRound (wDist 0 0 wFeatureA.latitude wFeatureA.longitude)⟩
    (by
      simp only [nearbyQuakes, List.mem_mergeSort]
      rw [show ([wFeatureA].enum.filter fun p =>
          decide (wDist 0 0 p.2.latitude p.2.longitude ≤ 500)) =
          [(0, wFeatureA)] from by decide]
      simp only [List.map_cons, List.map_nil]
      exact List.mem_singleton.mpr rfl)

/-- C10: the nearby handler applies no per-record magnitude filter: every
feed record within radiusKm of the center appears in the output, whatever
its magnitude; and minMagnitude 3 selects the feed with magnitude floor
2.5, whose sub-3 records are therefore returned when within radius. -/
theorem c10_nearby_no_magnitude_filter :
    (∀ (dist : ℚ → ℚ → ℚ → ℚ → ℚ) (latitude longitude radiusKm : ℚ)
        (feed : List Feature) (p : ℕ × Feature), p ∈ feed.enum →
        dist latitude longitude p.2.latitude p.2.longitude ≤ radiusKm →
        (⟨p.1, p.2, jsRound (dist latitude longitude p.2.latitude p.2.longitude)⟩ :
          NearbyQuake) ∈ nearbyQuakes dist latitude longitude radiusKm feed)
    ∧ nearbyEndpoint 3 = "2.5_day.geojson" := by
  constructor
  · intro dist latitude longitude radiusKm feed p hp hdist
    simp only [nearbyQuakes, List.mem_mergeSort]
    exact List.mem_map_of_mem _ (List.mem_filter.mpr ⟨hp, by simpa using hdist⟩)
  · norm_num [nearbyEndpoint]

/-- C10 witness: a magnitude-2 record (below a minMagnitude of 3) at
distance 0 is returned by the nearby pipeline. -/
theorem c10_nearby_no_magnitude_filter_witness :
    wFeatureLow.mag < 3
    ∧ (⟨0, wFeatureLow,
        jsRound (wDist 0 0 wFeatureLow.latitude wFeatureLow.longitude)⟩ :
        NearbyQuake) ∈ nearbyQuakes wDist 0 0 500 [wFeatureLow] :=
  ⟨by decide,
   c10_nearby_no_magnitude_filter.1 wDist 0 0 500 [wFeatureLow]
     (0, wFeatureLow) (by decide) (by decide)⟩

/-- C6 witness: the concrete out-of-range inputs of the claim — radius 0,
radius 25000, one region, six regions — each rejected with a validation
error and zero fetches. -/
theorem c6_validation_before_fetch_witness :
    searchOp none wSearchRadius0 = (.error .validationError, 0)
    ∧ searchOp none wSearchRadius25000 = (.error .validationError, 0)
    ∧ compareOp wBadNet wCompare1 = (.error .validationError, 0)
    ∧ compareOp wBadNet wCompare6 = (.error .validationError, 0) :=
  ⟨c6_validation_before_fetch.1 none wSearchRadius0 (Or.inl (by decide)),
   c6_validation_before_fetch.1 none wSearchRadius25000 (Or.inr (by decide)),
   c6_validation_before_fetch.2 wBadNet wCompare1 (Or.inl (by decide)),
   c6_validation_before_fetch.2 wBadNet wCompare6 (Or.inr (by decide))⟩

end EarthquakeIntel
